import Mathlib

/-!
# Verification of the maplibre-native-rs rendering-pool layer

Shallow embedding of the concurrency/IPC layer of `maplibre-native-rs`:

* `src/pool.rs` — `SingleThreadedRenderPool` (the "Serializing Pool");
* `src/pool/multi_threaded.rs` — `MultiThreadedRenderPool` (the "Process
  Pool"): wire framing, the bincode codec of `WorkerRequest` /
  `WorkerResponse`, the parent-side reader loop `Worker::read_responses`,
  the dispatch logic of `render_tile`, and the worker loop `run_worker`;
* `src/renderer/image_renderer.rs` — `Image::from_raw` and
  `ImageRenderer::load_style_from_path` / `render_tile`.

Bytes are modelled as `Nat` (values `< 256` on the wire), machine integers
as `Nat` with explicit `% 2^w` where the Rust code wraps or casts, and the
filesystem / backend as an explicit environment record.
-/

namespace Maplibre

/-! ## Little-endian byte encoding

`u32::to_le_bytes` / `u32::from_le_bytes` and the `u64` variants, as used
by the length prefix (`multi_threaded.rs` lines 141–142, 172, 349, 446–448)
and by bincode's fixed-width integer encoding. -/

/-- Little-endian bytes of `n`, `k` bytes wide (so `u32 = leBytes 4`,
`u64 = leBytes 8`); only `n % 2^(8*k)` is represented, matching the Rust
`as u32` cast on the length prefix. -/
def leBytes : Nat → Nat → List Nat
  | 0, _ => []
  | k + 1, n => n % 256 :: leBytes k (n / 256)

/-- Reading of `u32::from_le_bytes` / bincode's fixed-int decoding: read a list of
bytes as a little-endian natural number. -/
def leValue : List Nat → Nat
  | [] => 0
  | b :: bs => b + 256 * leValue bs

/-! ## Wire framing

`[u32 little-endian length][payload]`.

Sender side (`Worker::send_request` lines 140–144 and
`MultiThreadedRenderPool::send_response` lines 445–450):
```rust
let len = encoded.len() as u32;
stdin.write_all(&len.to_le_bytes())?;
stdin.write_all(&encoded)?;
```
Receiver side (`Worker::read_responses` lines 166–177 and `run_worker`
lines 343–354):
```rust
let mut len_bytes = [0u8; 4];
if stdout.read_exact(&mut len_bytes).is_err() { break; }
let len = u32::from_le_bytes(len_bytes) as usize;
let mut buffer = vec![0u8; len];
if stdout.read_exact(&mut buffer).is_err() { break; }
```
-/

/-- The bytes a sender puts on the stream for one message: 4-byte
little-endian length prefix (the Rust `as u32` cast wraps, hence no side
condition here) followed by the payload. -/
def writeFrame (payload : List Nat) : List Nat :=
  leBytes 4 payload.length ++ payload

/-- Model of `read_exact`: consume exactly `k` bytes from the stream, failing
(like `read_exact` at EOF) when fewer remain. -/
def readExact (k : Nat) (s : List Nat) : Option (List Nat × List Nat) :=
  if k ≤ s.length then some (s.take k, s.drop k) else none

/-- The receiver loop body: read exactly 4 length bytes, decode them as a
little-endian `u32`, then read exactly that many payload bytes. Returns
the payload and the rest of the stream. -/
def readFrame (s : List Nat) : Option (List Nat × List Nat) :=
  match readExact 4 s with
  | none => none
  | some (lenBytes, rest) =>
    match readExact (leValue lenBytes) rest with
    | none => none
    | some (buffer, rest2) => some (buffer, rest2)

/-! ## The bincode codec of `WorkerRequest` and `WorkerResponse`

`multi_threaded.rs` lines 46–67 declare

```rust
struct WorkerRequest { id: u64, style_path: PathBuf, z: u8, x: u32, y: u32 }
struct WorkerResponse { id: u64, result: Result<Vec<u8>, String> }
```

encoded with `bincode::serialize` / `bincode::deserialize` (bincode 1.x
default options: fixed-width little-endian integers; `PathBuf`/`String`
as `u64` length + UTF-8 bytes; `Vec<u8>` as `u64` length + bytes;
`Result` as a `u32` variant tag, 0 = `Ok`, 1 = `Err`).
Paths and strings are modelled as their byte lists. -/

structure WorkerRequest where
  id : Nat
  style_path : List Nat
  z : Nat
  x : Nat
  y : Nat
  deriving Repr, DecidableEq

/-- Encoding `bincode::serialize(&WorkerRequest { .. })` (`Worker::send_request`
line 137). -/
def encodeWorkerRequest (r : WorkerRequest) : List Nat :=
  leBytes 8 r.id ++ (leBytes 8 r.style_path.length ++ (r.style_path ++
    (leBytes 1 r.z ++ (leBytes 4 r.x ++ leBytes 4 r.y))))

/-- Decoding `bincode::deserialize::<WorkerRequest>(&buffer)` (`run_worker`
line 358); fails when the buffer is too short, ignores trailing bytes. -/
def decodeWorkerRequest (b : List Nat) : Option WorkerRequest :=
  match readExact 8 b with
  | none => none
  | some (idB, b1) =>
  match readExact 8 b1 with
  | none => none
  | some (lenB, b2) =>
  match readExact (leValue lenB) b2 with
  | none => none
  | some (path, b3) =>
  match readExact 1 b3 with
  | none => none
  | some (zB, b4) =>
  match readExact 4 b4 with
  | none => none
  | some (xB, b5) =>
  match readExact 4 b5 with
  | none => none
  | some (yB, _) =>
    some { id := leValue idB, style_path := path, z := leValue zB,
           x := leValue xB, y := leValue yB }

/-- The `result: Result<Vec<u8>, String>` payload of a response:
`Sum.inl` = `Ok(raw image bytes)`, `Sum.inr` = `Err(message bytes)`. -/
abbrev WorkerResult := Sum (List Nat) (List Nat)

structure WorkerResponse where
  id : Nat
  result : WorkerResult
  deriving Repr, DecidableEq

/-- Encoding `bincode::serialize(&WorkerResponse { .. })`
(`MultiThreadedRenderPool::send_response` line 442). -/
def encodeWorkerResponse (r : WorkerResponse) : List Nat :=
  leBytes 8 r.id ++
    match r.result with
    | Sum.inl data => leBytes 4 0 ++ (leBytes 8 data.length ++ data)
    | Sum.inr msg => leBytes 4 1 ++ (leBytes 8 msg.length ++ msg)

/-- Decoding `bincode::deserialize::<WorkerResponse>(&buffer)`
(`Worker::read_responses` line 181); fails on a short buffer or an
out-of-range variant tag. -/
def decodeWorkerResponse (b : List Nat) : Option WorkerResponse :=
  match readExact 8 b with
  | none => none
  | some (idB, b1) =>
  match readExact 4 b1 with
  | none => none
  | some (tagB, b2) =>
  match readExact 8 b2 with
  | none => none
  | some (lenB, b3) =>
  match readExact (leValue lenB) b3 with
  | none => none
  | some (data, _) =>
    if leValue tagB = 0 then
      some { id := leValue idB, result := Sum.inl data }
    else if leValue tagB = 1 then
      some { id := leValue idB, result := Sum.inr data }
    else none

/-- What `Worker::send_request` puts on the worker's stdin for a request:
the bincode encoding wrapped in a length-prefixed frame. -/
def sendRequestBytes (r : WorkerRequest) : List Nat :=
  writeFrame (encodeWorkerRequest r)

/-- What `run_worker` recovers from the front of its stdin: one frame,
decoded as a `WorkerRequest`. -/
def decodeRequestFrame (s : List Nat) : Option WorkerRequest :=
  match readFrame s with
  | none => none
  | some (buffer, _) => decodeWorkerRequest buffer

/-! ## Images (`src/renderer/image_renderer.rs`)

`Image::from_raw` (lines 44–54):
```rust
pub(crate) fn from_raw(bytes: &[u8]) -> Option<Self> {
    if bytes.len() < 8 { return None; }
    let width = u32::from_ne_bytes([bytes[0], bytes[1], bytes[2], bytes[3]]);
    let height = u32::from_ne_bytes([bytes[4], bytes[5], bytes[6], bytes[7]]);
    let data = bytes[8..].to_vec();
    ImageBuffer::from_vec(width, height, data).map(Image)
}
```
`from_ne_bytes` is native byte order; both supported targets are
little-endian, so it is modelled as little-endian. -/

structure Image where
  width : Nat
  height : Nat
  data : List Nat
  deriving Repr, DecidableEq

/-- Model of `image::ImageBuffer::<Rgba<u8>, Vec<u8>>::from_vec(width, height, buf)`
(external `image` crate): succeeds iff the buffer is at least as long as
`width * height * 4` (4 = RGBA8 channel count); the crate's internal
checked multiplication only turns an overflow into `None`, which over `Nat`
is subsumed by the length comparison. -/
def ImageBuffer.fromVec (width height : Nat) (buf : List Nat) : Option Image :=
  if width * height * 4 ≤ buf.length then some ⟨width, height, buf⟩ else none

/-- Function `Image::from_raw` (image_renderer.rs lines 44–54). -/
def Image.from_raw (bytes : List Nat) : Option Image :=
  if bytes.length < 8 then none
  else
    ImageBuffer.fromVec (leValue (bytes.take 4)) (leValue ((bytes.drop 4).take 4))
      (bytes.drop 8)

/-- Modelled from the spec: `Image::to_raw_bytes` is called by `run_worker`
(multi_threaded.rs line 406) but its definition is not under `src/`.
Spec §6: `RawImage = {width:u32, height:u32, bytes: width*height*4}`
(RGBA8, row-major, unpadded), §4.2: success payload is
`[u32 width][u32 height][width*height*4 RGBA8 bytes]`. -/
def Image.to_raw_bytes (img : Image) : List Nat :=
  leBytes 4 img.width ++ leBytes 4 img.height ++ img.data

/-- Modelled from the spec: `Image::from_raw_bytes` is called by
`Worker::read_responses` (multi_threaded.rs line 199) but its definition is
not under `src/`. Per the same spec sentences as `Image.to_raw_bytes`, it
parses an 8-byte width/height header followed by `width*height*4` bytes. -/
def Image.from_raw_bytes (bytes : List Nat) : Option Image :=
  if bytes.length < 8 then none
  else
    let width := leValue (bytes.take 4)
    let height := leValue ((bytes.drop 4).take 4)
    if (bytes.drop 8).length = width * height * 4 then
      some ⟨width, height, bytes.drop 8⟩
    else none

/-! ## The renderer and its backend environment

`ImageRenderer::load_style_from_path` and
`ImageRenderer::<Tile>::render_tile` (image_renderer.rs lines 104–124 and
166–178). The filesystem and the opaque C++ backend (`ffi::MapRenderer_*`)
are an explicit environment; every call into the backend is recorded as a
begin/end pair of events so that (non-)interaction and (non-)overlap are
observable. -/

/-- The `std::io::ErrorKind` values produced by `load_style_from_path`. -/
inductive IoErrorKind
  | notFound
  | invalidData
  deriving Repr, DecidableEq

/-- Type `RenderingError` (image_renderer.rs lines 326–333). -/
inductive RenderingError
  | styleNotSpecified
  | invalidImageData
  deriving Repr, DecidableEq

/-- One synchronous call into the non-reentrant backend, bracketed by a
begin and an end event. Paths are their byte lists. -/
inductive BackendEvent
  | loadBegin (path : List Nat)
  | loadEnd (path : List Nat)
  | renderBegin (z x y : Nat)
  | renderEnd (z x y : Nat)
  deriving Repr, DecidableEq

/-- The fixed outside world of one execution context: the filesystem
(`Path::is_file`, `Path::to_str().is_some()`), the raw bytes the backend's
render call returns for a tile, and whether writes to the worker's stdout
succeed (`run_worker` only). -/
structure Env where
  isFile : List Nat → Bool
  pathUtf8 : List Nat → Bool
  renderData : Nat → Nat → Nat → List Nat
  stdoutOk : Bool

/-- The mutable state of one `ImageRenderer` plus its context's style
cache slot: `style_specified` (builder.rs line 279 initialises it to
`false`) and `current_style` (pool.rs line 63 / multi_threaded.rs
line 339). -/
structure RendererState where
  specified : Bool
  currentStyle : Option (List Nat)
  deriving Repr, DecidableEq

/-- State of a freshly built tile renderer with an empty style cache. -/
def initRenderer : RendererState := ⟨false, none⟩

/-- Function `load_style_from_path` (image_renderer.rs lines 104–124): `is_file`
check, then UTF-8 check, then the single backend call
`MapRenderer_getStyle_loadURL` and `style_specified = true`. Returns
(result, new `style_specified`, backend events). -/
def loadStyleFromPath (env : Env) (specified : Bool) (path : List Nat) :
    Except IoErrorKind Unit × Bool × List BackendEvent :=
  if env.isFile path = false then (.error .notFound, specified, [])
  else if env.pathUtf8 path = false then (.error .invalidData, specified, [])
  else (.ok (), true, [.loadBegin path, .loadEnd path])

/-- Function `ImageRenderer::<Tile>::render_tile` (image_renderer.rs lines
166–178): fails with `StyleNotSpecified` before any backend call,
otherwise performs one backend render call (`MapRenderer_setCamera` +
`MapRenderer_render`) and decodes the returned bytes with
`Image::from_raw`. -/
def renderTile (env : Env) (specified : Bool) (z x y : Nat) :
    Except RenderingError Image × List BackendEvent :=
  if specified = false then (.error .styleNotSpecified, [])
  else
    match Image.from_raw (env.renderData z x y) with
    | none => (.error .invalidImageData, [.renderBegin z x y, .renderEnd z x y])
    | some img => (.ok img, [.renderBegin z x y, .renderEnd z x y])

/-- Whether a `load_style_from_path` attempt on `path` would succeed in
`env` (both its checks pass). -/
def loadOk (env : Env) (path : List Nat) : Bool :=
  env.isFile path && env.pathUtf8 path

/-! ## The Serializing Pool's worker thread (`src/pool.rs`)

```rust
while let Ok(request) = rx.recv() {
    if current_style.as_ref() != Some(&request.style_path) {
        if let Err(e) = renderer.load_style_from_path(&request.style_path) {
            let _ = request.response.send(Err(PoolError::IOError(e)));
            continue;
        }
        current_style = Some(request.style_path.clone());
    }
    let result = renderer.render_tile(request.z, request.x, request.y)
        .map_err(PoolError::RenderingError);
    let _ = request.response.send(result);
}
```
(lines 65–81). The mpsc queue delivers the concurrently submitted
requests to this single thread in some sequence; the model therefore
quantifies over an arbitrary list of requests. -/

/-- Type `RenderRequest` (pool.rs lines 35–41), minus the oneshot response
channel (results are returned instead). -/
structure RenderRequest where
  style_path : List Nat
  z : Nat
  x : Nat
  y : Nat
  deriving Repr, DecidableEq

/-- Type `PoolError` (pool.rs lines 128–141). -/
inductive PoolError
  | ioError (e : IoErrorKind)
  | renderingError (e : RenderingError)
  | failedToSendRequest
  | failedToReceiveResponse
  deriving Repr, DecidableEq

/-- One iteration of the worker-thread loop (pool.rs lines 65–81) on one
request: returns (the result sent back on the oneshot channel, the new
renderer/cache state, whether `load_style_from_path` was invoked, the
backend events of this iteration). -/
def poolStep (env : Env) (st : RendererState) (req : RenderRequest) :
    Except PoolError Image × RendererState × Bool × List BackendEvent :=
  if st.currentStyle = some req.style_path then
    let r := renderTile env st.specified req.z req.x req.y
    (r.1.mapError .renderingError, st, false, r.2)
  else
    match loadStyleFromPath env st.specified req.style_path with
    | (.error e, specified, ev) =>
      (.error (.ioError e), { st with specified := specified }, true, ev)
    | (.ok _, specified, ev) =>
      let st' : RendererState := ⟨specified, some req.style_path⟩
      let r := renderTile env specified req.z req.x req.y
      (r.1.mapError .renderingError, st', true, ev ++ r.2)

/-- The worker thread's whole backend-event trace across a sequence of
requests (the order in which `rx.recv()` delivers them). -/
def poolTrace (env : Env) : RendererState → List RenderRequest → List BackendEvent
  | _, [] => []
  | st, req :: rest =>
    (poolStep env st req).2.2.2 ++ poolTrace env (poolStep env st req).2.1 rest

/-- Per-request outputs of the worker thread: for each request in
sequence, the result it sends back and the backend events it performs. -/
def poolRunOutputs (env : Env) :
    RendererState → List RenderRequest → List (Except PoolError Image × List BackendEvent)
  | _, [] => []
  | st, req :: rest =>
    let s := poolStep env st req
    (s.1, s.2.2.2) :: poolRunOutputs env s.2.1 rest

/-! ## The process-pool worker loop (`run_worker`, multi_threaded.rs 332–436) -/

/-- Stand-in bytes for `format!("Failed to load style: {e}")`
(multi_threaded.rs line 377): the display text is presentation only;
each error kind maps to a distinct byte tag. -/
def loadErrorMsg : IoErrorKind → List Nat
  | .notFound => [0]
  | .invalidData => [1]

/-- Stand-in bytes for `format!("Rendering error: {e}")`
(multi_threaded.rs line 417). -/
def renderErrorMsg : RenderingError → List Nat
  | .styleNotSpecified => [2]
  | .invalidImageData => [3]

/-- The response `run_worker` builds from a render outcome (lines
392–423): `Ok(image.to_raw_bytes())` or `Err(format!("Rendering error:
{e}"))`. -/
def mkWorkerResponse (id : Nat) : Except RenderingError Image → WorkerResponse
  | .ok img => { id := id, result := Sum.inl img.to_raw_bytes }
  | .error e => { id := id, result := Sum.inr (renderErrorMsg e) }

/-- The body of `run_worker`'s loop for one decoded request (lines
369–425): same style-cache policy as the Serializing Pool's thread, then a
render; returns (the response written to stdout, new state, whether
`load_style_from_path` was invoked, backend events). -/
def workerStep (env : Env) (st : RendererState) (req : WorkerRequest) :
    WorkerResponse × RendererState × Bool × List BackendEvent :=
  if st.currentStyle = some req.style_path then
    let r := renderTile env st.specified req.z req.x req.y
    (mkWorkerResponse req.id r.1, st, false, r.2)
  else
    match loadStyleFromPath env st.specified req.style_path with
    | (.error e, specified, ev) =>
      ({ id := req.id, result := Sum.inr (loadErrorMsg e) },
        { st with specified := specified }, true, ev)
    | (.ok _, specified, ev) =>
      let st' : RendererState := ⟨specified, some req.style_path⟩
      let r := renderTile env specified req.z req.x req.y
      (mkWorkerResponse req.id r.1, st', true, ev ++ r.2)

/-- Per-request outputs of a worker process across a sequence of decoded
requests. -/
def workerRunOutputs (env : Env) :
    RendererState → List WorkerRequest → List (WorkerResponse × List BackendEvent)
  | _, [] => []
  | st, req :: rest =>
    let s := workerStep env st req
    (s.1, s.2.2.2) :: workerRunOutputs env s.2.1 rest

/-- How `run_worker` returns: `ok` models `Ok(())` after the loop `break`s
on a read failure (EOF or truncated frame, lines 346–354); `ioErr` models
an early `Err(..)` propagated by `?` from `send_response` (lines 379 and
425) when writing a response fails. -/
inductive RunExit
  | ok
  | ioErr
  deriving Repr, DecidableEq

/-- Fuelled `run_worker` loop (lines 343–433) over the byte stream of its
stdin: read one frame (`break` ⇒ `Ok(())` when that fails), decode it
(`continue` on failure), process the request, write the response
(`?` ⇒ `Err` when that fails). Each iteration consumes at least the
4-byte length prefix, so fuel `stream.length + 1` always suffices; `none`
is returned only on fuel exhaustion. -/
def runWorkerLoopFuel (env : Env) : Nat → List Nat → RendererState → Option RunExit
  | 0, _, _ => none
  | fuel + 1, stream, st =>
    match readFrame stream with
    | none => some .ok
    | some (buffer, rest) =>
      match decodeWorkerRequest buffer with
      | none => runWorkerLoopFuel env fuel rest st
      | some req =>
        if env.stdoutOk then
          runWorkerLoopFuel env fuel rest (workerStep env st req).2.1
        else some .ioErr

/-- Function `MultiThreadedRenderPool::run_worker` (lines 332–436), started on a
fresh renderer with an empty style cache. -/
def runWorker (env : Env) (stream : List Nat) : Option RunExit :=
  runWorkerLoopFuel env (stream.length + 1) stream initRenderer

/-! ## The parent's per-worker reader (`Worker::read_responses`, lines 158–215) -/

/-- What a pending oneshot completion is resolved with by the reader
thread (lines 196–205): the decoded image, the worker's error text, or
`ImageDecodeError` when `Image::from_raw_bytes` fails. -/
inductive ReaderResult
  | ok (img : Image)
  | workerError (msg : List Nat)
  | imageDecodeError
  deriving Repr, DecidableEq

/-- Lines 196–205: turn a response's `result` field into what the
completion is resolved with. -/
def resolveResult : WorkerResult → ReaderResult
  | Sum.inr msg => .workerError msg
  | Sum.inl data =>
    match Image.from_raw_bytes data with
    | some img => .ok img
    | none => .imageDecodeError

/-- Fuelled `Worker::read_responses` loop over the worker's stdout byte
stream. `pending` is the id set of the pending table; returns the
completions resolved (in stream order) and the ids still pending when the
loop exits on a read failure. A frame that fails to decode is skipped
(`continue`, line 183); a response id with no pending entry is discarded
(line 192). `none` only on fuel exhaustion; fuel `stream.length + 1`
always suffices. -/
def readResponsesFuel :
    Nat → List Nat → List Nat → Option (List (Nat × ReaderResult) × List Nat)
  | 0, _, _ => none
  | fuel + 1, stream, pending =>
    match readFrame stream with
    | none => some ([], pending)
    | some (buffer, rest) =>
      match decodeWorkerResponse buffer with
      | none => readResponsesFuel fuel rest pending
      | some resp =>
        if resp.id ∈ pending then
          match readResponsesFuel fuel rest (pending.erase resp.id) with
          | none => none
          | some (resolved, pending') =>
            some ((resp.id, resolveResult resp.result) :: resolved, pending')
        else readResponsesFuel fuel rest pending

/-- Loop `Worker::read_responses` on a complete stdout stream. -/
def readResponses (stream : List Nat) (pending : List Nat) :
    Option (List (Nat × ReaderResult) × List Nat) :=
  readResponsesFuel (stream.length + 1) stream pending

/-! ## Parent-side dispatch (`MultiThreadedRenderPool`, lines 247–313) -/

/-- The two panics that `render_tile` can hit when the worker list is
empty: `(*idx + 1) % num_workers` with `num_workers == 0` (line 299), and
`workers[worker_idx]` out of bounds (line 306). -/
inductive PanicKind
  | remainderByZero
  | indexOutOfBounds
  deriving Repr, DecidableEq

/-- The two counters of the pool (lines 232–233), both starting at 0
(lines 256–257). -/
structure PoolDispatchState where
  nextRequestId : Nat
  nextWorkerIdx : Nat
  deriving Repr, DecidableEq

/-- The id-allocation and worker-selection prefix of `render_tile` (lines
286–306) against a pool of `numWorkers` live workers: allocate
`next_request_id` (wrapping u64 add), select `next_worker_idx`, advance it
by `(*idx + 1) % num_workers` — a panic when `num_workers` is 0 — and
index `workers[worker_idx]`. Returns (request id, worker index, new
state). -/
def dispatch (numWorkers : Nat) (s : PoolDispatchState) :
    Except PanicKind (Nat × Nat × PoolDispatchState) :=
  let requestId := s.nextRequestId
  let nextId := (s.nextRequestId + 1) % 2 ^ 64
  if numWorkers = 0 then .error .remainderByZero
  else
    let current := s.nextWorkerIdx
    let s' : PoolDispatchState := ⟨nextId, (s.nextWorkerIdx + 1) % numWorkers⟩
    if current < numWorkers then .ok (requestId, current, s')
    else .error .indexOutOfBounds

/-- Constructor `MultiThreadedRenderPool::new(num_workers)` (lines 247–259): spawn
`num_workers` workers — `?` propagates the first spawn failure; `spawnOk
k` says whether the `k`-th spawn succeeds — then both counters start at 0.
Returns (worker count, initial counters). For `num_workers = 0` the spawn
loop body never runs. -/
def newPool (spawnOk : Nat → Bool) (numWorkers : Nat) :
    Except Unit (Nat × PoolDispatchState) :=
  if (List.range numWorkers).all spawnOk then .ok (numWorkers, ⟨0, 0⟩)
  else .error ()

/-- The counters after `i` sequential (non-overlapping) `render_tile`
dispatches against a pool of `numWorkers` workers, starting from the
counters `new` creates. -/
def stateAfter (numWorkers : Nat) : Nat → PoolDispatchState
  | 0 => ⟨0, 0⟩
  | i + 1 =>
    match dispatch numWorkers (stateAfter numWorkers i) with
    | .ok (_, _, s') => s'
    | .error _ => stateAfter numWorkers i

/-- The `i`-th (0-indexed) sequential dispatch. -/
def nthDispatch (numWorkers i : Nat) :
    Except PanicKind (Nat × Nat × PoolDispatchState) :=
  dispatch numWorkers (stateAfter numWorkers i)

/-! ## Serialization of backend calls (for the non-overlap property) -/

/-- Whether an event opens a backend call. -/
def isBegin : BackendEvent → Bool
  | .loadBegin _ => true
  | .renderBegin _ _ _ => true
  | _ => false

/-- Walk a trace keeping the number of backend calls currently in flight
(0 or 1): a begin event is admissible only at depth 0, an end event only
at depth 1; `none` means two backend calls overlapped (or an end without a
begin). `some d` is the final depth. -/
def scanDepth : Nat → List BackendEvent → Option Nat
  | d, [] => some d
  | d, e :: rest =>
    if isBegin e then
      if d = 0 then scanDepth 1 rest else none
    else
      if d = 1 then scanDepth 0 rest else none

/-- The style-cache validity invariant of one context: any cached path
passed both load checks when it was cached. -/
def cacheValid (env : Env) (st : RendererState) : Prop :=
  ∀ p, st.currentStyle = some p → loadOk env p = true

/-! ## Helper lemmas -/

theorem leBytes_length (k n : Nat) : (leBytes k n).length = k := by
  induction k generalizing n with
  | zero => rfl
  | succ k ih => simp [leBytes, ih]

theorem leValue_leBytes (k n : Nat) (h : n < 2 ^ (8 * k)) :
    leValue (leBytes k n) = n := by
  induction k generalizing n with
  | zero =>
    simp only [Nat.mul_zero, Nat.pow_zero, Nat.lt_one_iff] at h
    simp [h, leBytes, leValue]
  | succ k ih =>
    have hlt : n / 256 < 2 ^ (8 * k) := by
      have : n < 2 ^ (8 * k) * 256 := by
        calc n < 2 ^ (8 * (k + 1)) := h
        _ = 2 ^ (8 * k) * 2 ^ 8 := by ring
        _ = 2 ^ (8 * k) * 256 := by norm_num
      omega
    simp only [leBytes, leValue, ih (n / 256) hlt]
    omega

theorem leBytes_mod (k n : Nat) : leBytes k (n % 2 ^ (8 * k)) = leBytes k n := by
  induction k generalizing n with
  | zero => rfl
  | succ k ih =>
    have h256 : (2 : Nat) ^ (8 * (k + 1)) = 2 ^ (8 * k) * 256 := by
      have : 8 * (k + 1) = 8 * k + 8 := by ring
      simp [this, Nat.pow_add]
    have h1 : n % 2 ^ (8 * (k + 1)) % 256 = n % 256 :=
      Nat.mod_mod_of_dvd n ⟨2 ^ (8 * k), by rw [h256]; ring⟩
    have h2 : n % 2 ^ (8 * (k + 1)) / 256 = n / 256 % 2 ^ (8 * k) := by
      rw [h256, Nat.mul_comm, Nat.mod_mul_right_div_self]
    simp only [leBytes, h1, h2, ih]

theorem readExact_append (p rest : List Nat) :
    readExact p.length (p ++ rest) = some (p, rest) := by
  simp [readExact]

theorem readExact_of_length (k : Nat) (p rest : List Nat) (h : p.length = k) :
    readExact k (p ++ rest) = some (p, rest) := by
  subst h; exact readExact_append p rest

theorem readFrame_writeFrame (payload rest : List Nat)
    (h : payload.length < 2 ^ 32) :
    readFrame (writeFrame payload ++ rest) = some (payload, rest) := by
  have h4 : (leBytes 4 payload.length).length = 4 := leBytes_length 4 _
  have hval : leValue (leBytes 4 payload.length) = payload.length :=
    leValue_leBytes 4 _ (by norm_num at h ⊢; omega)
  simp only [readFrame, writeFrame, List.append_assoc]
  rw [readExact_of_length 4 _ _ h4]
  dsimp only
  rw [hval, readExact_append]

theorem decodeWorkerRequest_encode (r : WorkerRequest)
    (hid : r.id < 2 ^ 64) (hlen : r.style_path.length < 2 ^ 64)
    (hz : r.z < 2 ^ 8) (hx : r.x < 2 ^ 32) (hy : r.y < 2 ^ 32) :
    ∀ rest, decodeWorkerRequest (encodeWorkerRequest r ++ rest) = some r := by
  intro rest
  obtain ⟨id, path, z, x, y⟩ := r
  simp only [decodeWorkerRequest, encodeWorkerRequest, List.append_assoc]
  rw [readExact_of_length 8 _ _ (leBytes_length 8 id)]
  dsimp only
  rw [readExact_of_length 8 _ _ (leBytes_length 8 path.length)]
  dsimp only
  rw [leValue_leBytes 8 _ hlen, readExact_append]
  dsimp only
  rw [readExact_of_length 1 _ _ (leBytes_length 1 z)]
  dsimp only
  rw [readExact_of_length 4 _ _ (leBytes_length 4 x)]
  dsimp only
  rw [readExact_of_length 4 _ _ (leBytes_length 4 y)]
  dsimp only
  rw [leValue_leBytes 8 _ hid, leValue_leBytes 1 _ hz,
    leValue_leBytes 4 _ hx, leValue_leBytes 4 _ hy]

theorem decodeWorkerResponse_encode (r : WorkerResponse)
    (hid : r.id < 2 ^ 64)
    (hlen : (match r.result with
             | Sum.inl data => data.length
             | Sum.inr msg => msg.length) < 2 ^ 64) :
    ∀ rest, decodeWorkerResponse (encodeWorkerResponse r ++ rest) = some r := by
  intro rest
  obtain ⟨id, result⟩ := r
  cases result with
  | inl data =>
    simp only [decodeWorkerResponse, encodeWorkerResponse, List.append_assoc]
    rw [readExact_of_length 8 _ _ (leBytes_length 8 id)]
    dsimp only
    rw [readExact_of_length 4 _ _ (leBytes_length 4 0)]
    dsimp only
    rw [readExact_of_length 8 _ _ (leBytes_length 8 data.length)]
    dsimp only
    rw [leValue_leBytes 8 _ (by simpa using hlen), readExact_append]
    dsimp only
    rw [leValue_leBytes 4 0 (by norm_num)]
    simp [leValue_leBytes 8 _ hid]
  | inr msg =>
    simp only [decodeWorkerResponse, encodeWorkerResponse, List.append_assoc]
    rw [readExact_of_length 8 _ _ (leBytes_length 8 id)]
    dsimp only
    rw [readExact_of_length 4 _ _ (leBytes_length 4 1)]
    dsimp only
    rw [readExact_of_length 8 _ _ (leBytes_length 8 msg.length)]
    dsimp only
    rw [leValue_leBytes 8 _ (by simpa using hlen), readExact_append]
    dsimp only
    rw [leValue_leBytes 4 1 (by norm_num)]
    simp [leValue_leBytes 8 _ hid]

theorem encodeWorkerRequest_length (r : WorkerRequest) :
    (encodeWorkerRequest r).length = r.style_path.length + 25 := by
  simp [encodeWorkerRequest, leBytes_length]
  omega

/-! ## Claim theorems -/

/-- C5: every message exchanged between parent and worker is framed as a
4-byte little-endian u32 equal to the payload's byte length followed by
exactly the payload bytes, and the receiving side first reads exactly 4
length bytes and then exactly that many payload bytes, recovering the
payload and leaving the rest of the stream untouched. -/
theorem wire_framing (payload rest : List Nat) (h : payload.length < 2 ^ 32) :
    writeFrame payload = leBytes 4 payload.length ++ payload ∧
    (leBytes 4 payload.length).length = 4 ∧
    leValue (leBytes 4 payload.length) = payload.length ∧
    readFrame (writeFrame payload ++ rest) = some (payload, rest) := by
  have h' : payload.length < 2 ^ (8 * 4) := by norm_num; omega
  exact ⟨rfl, leBytes_length 4 _, leValue_leBytes 4 _ h',
    readFrame_writeFrame payload rest h⟩

/-- Witness for C5 at the concrete payload `[7, 8, 9]`. -/
theorem wire_framing_witness :
    ([7, 8, 9] : List Nat).length < 2 ^ 32 ∧
      readFrame (writeFrame [7, 8, 9] ++ [1]) = some ([7, 8, 9], [1]) :=
  ⟨by norm_num, (wire_framing [7, 8, 9] [1] (by norm_num)).2.2.2⟩

/-- C6: encoding a request for the wire (bincode serialization inside a
length-prefixed frame, as `Worker::send_request` does) and then decoding
it (frame read plus bincode deserialization, as `run_worker` does)
reproduces all original fields exactly, for arbitrary id, style path, z,
x, y within their machine-integer ranges. -/
theorem request_codec_roundtrip (r : WorkerRequest)
    (hid : r.id < 2 ^ 64) (hz : r.z < 2 ^ 8)
    (hx : r.x < 2 ^ 32) (hy : r.y < 2 ^ 32)
    (hp : r.style_path.length + 25 < 2 ^ 32) :
    decodeRequestFrame (sendRequestBytes r) = some r := by
  have hlen : (encodeWorkerRequest r).length < 2 ^ 32 := by
    rw [encodeWorkerRequest_length]; omega
  have hframe := readFrame_writeFrame (encodeWorkerRequest r) [] hlen
  rw [List.append_nil] at hframe
  have hdec := decodeWorkerRequest_encode r hid
    (by omega) hz hx hy []
  rw [List.append_nil] at hdec
  simp [decodeRequestFrame, sendRequestBytes, hframe, hdec]

/-- Witness for C6 at the extremes `z = 255`, `x = y = u32::MAX`. -/
theorem request_codec_roundtrip_witness :
    decodeRequestFrame
        (sendRequestBytes ⟨77, [97], 255, 4294967295, 4294967295⟩) =
      some ⟨77, [97], 255, 4294967295, 4294967295⟩ :=
  request_codec_roundtrip ⟨77, [97], 255, 4294967295, 4294967295⟩
    (by norm_num) (by norm_num) (by norm_num) (by norm_num) (by norm_num)

/-- C10 counterexample: on the 9-byte slice `[0,0,0,0, 0,0,0,0, 5]` the
header declares a 0×0 image, so the declared buffer size is 0 bytes, yet
one data byte follows — not "exactly width*height*4 bytes" — and
`Image::from_raw` still returns `Some`, where the claim requires `None`. -/
theorem from_raw_counterexample :
    Image.from_raw [0, 0, 0, 0, 0, 0, 0, 0, 5] = some ⟨0, 0, [5]⟩ ∧
      ¬ (([5] : List Nat).length = 0 * 0 * 4) := by
  decide

/-- C10 (amended): `Image::from_raw` is total; for every byte slice
shorter than 8 bytes it returns `None`, and for every slice of at least 8
bytes it returns `Some` if and only if the bytes after the 8-byte
width/height header number **at least** `width*height*4` as declared by
that header (`image::ImageBuffer::from_vec` accepts oversized buffers);
otherwise it returns `None`. -/
theorem from_raw_amended (bytes : List Nat) :
    (bytes.length < 8 → Image.from_raw bytes = none) ∧
    (8 ≤ bytes.length →
      ((Image.from_raw bytes).isSome = true ↔
        leValue (bytes.take 4) * leValue ((bytes.drop 4).take 4) * 4 ≤
          bytes.length - 8)) := by
  constructor
  · intro h
    simp [Image.from_raw, h]
  · intro h
    rw [Image.from_raw, if_neg (by omega : ¬ bytes.length < 8),
      ImageBuffer.fromVec]
    by_cases hc : leValue (bytes.take 4) * leValue ((bytes.drop 4).take 4) * 4 ≤
        (bytes.drop 8).length
    · rw [if_pos hc]
      simp only [List.length_drop] at hc
      simp only [Option.isSome_some, true_iff]
      omega
    · rw [if_neg hc]
      simp only [List.length_drop] at hc
      simp only [Option.isSome_none, Bool.false_eq_true, false_iff]
      omega

/-- Witness for C10 (amended): a short slice yields `None`; the
counterexample slice yields `Some` because `0*0*4 ≤ 1`. -/
theorem from_raw_amended_witness :
    Image.from_raw [1, 2, 3] = none ∧
      (Image.from_raw [0, 0, 0, 0, 0, 0, 0, 0, 5]).isSome = true :=
  ⟨(from_raw_amended [1, 2, 3]).1 (by norm_num),
    ((from_raw_amended [0, 0, 0, 0, 0, 0, 0, 0, 5]).2 (by norm_num)).mpr
      (by decide)⟩

theorem mod_succ_mod (a n : Nat) : (a % n + 1) % n = (a + 1) % n := by
  conv_rhs => rw [Nat.add_mod]
  rw [Nat.add_mod (a % n) 1 n, Nat.mod_mod_of_dvd a dvd_rfl]

theorem dispatch_pos (numWorkers : Nat) (s : PoolDispatchState)
    (hW : 0 < numWorkers) (hb : s.nextWorkerIdx < numWorkers) :
    dispatch numWorkers s =
      .ok (s.nextRequestId, s.nextWorkerIdx,
        ⟨(s.nextRequestId + 1) % 2 ^ 64, (s.nextWorkerIdx + 1) % numWorkers⟩) := by
  rw [dispatch, if_neg (by omega), if_pos hb]

theorem stateAfter_eq (numWorkers i : Nat) (hW : 0 < numWorkers) :
    stateAfter numWorkers i = ⟨i % 2 ^ 64, i % numWorkers⟩ := by
  induction i with
  | zero => simp [stateAfter]
  | succ i ih =>
    rw [stateAfter, ih,
      dispatch_pos numWorkers _ hW (Nat.mod_lt i hW)]
    simp only [mod_succ_mod]

/-- C2: for a pool of `W > 0` workers with `M` render_tile calls
submitted sequentially (each dispatch completing before the next begins),
the `i`-th (0-indexed) dispatch selects worker `i mod W` (and allocates
request id `i`, wrapping at `u64`). -/
theorem round_robin_dispatch (W i : Nat) (hW : 0 < W) :
    nthDispatch W i =
      .ok (i % 2 ^ 64, i % W, ⟨(i + 1) % 2 ^ 64, (i + 1) % W⟩) := by
  rw [nthDispatch, stateAfter_eq W i hW,
    dispatch_pos W _ hW (Nat.mod_lt i hW)]
  simp only [mod_succ_mod]

/-- Witness for C2 at `W = 3`, `i = 7`: the 7th dispatch goes to worker
`7 mod 3 = 1`. -/
theorem round_robin_dispatch_witness :
    nthDispatch 3 7 = .ok (7, 1, ⟨8, 2⟩) := by
  have h := round_robin_dispatch 3 7 (by norm_num)
  simpa using h

/-- C9: `MultiThreadedRenderPool::new(0)` returns `Ok` (the spawn loop
body never runs, whatever `spawnOk` says) with a pool of zero workers,
and every subsequent `render_tile` call on that pool panics — the
remainder-by-zero in `(*idx + 1) % num_workers` is hit, whatever the
counters' state — instead of returning a typed error. -/
theorem zero_worker_pool_panics (spawnOk : Nat → Bool) (s : PoolDispatchState) :
    newPool spawnOk 0 = .ok (0, ⟨0, 0⟩) ∧
      dispatch 0 s = .error .remainderByZero := by
  constructor
  · simp [newPool]
  · simp [dispatch]

theorem cacheValid_init (env : Env) : cacheValid env initRenderer := by
  intro p hp
  simp [initRenderer] at hp

theorem poolStep_cacheValid (env : Env) (st : RendererState)
    (req : RenderRequest) (h : cacheValid env st) :
    cacheValid env (poolStep env st req).2.1 := by
  intro p hp
  by_cases hc : st.currentStyle = some req.style_path
  · simp only [poolStep, if_pos hc] at hp
    exact h p hp
  · by_cases hf : env.isFile req.style_path = false
    · simp only [poolStep, if_neg hc, loadStyleFromPath, hf, if_true] at hp
      exact h p hp
    · by_cases hu : env.pathUtf8 req.style_path = false
      · simp only [poolStep, if_neg hc, loadStyleFromPath, hf, hu,
          if_true, if_false] at hp
        exact h p hp
      · have hcur : (poolStep env st req).2.1.currentStyle = some req.style_path := by
          simp [poolStep, loadStyleFromPath, hc, hf, hu]
        rw [hcur, Option.some_inj] at hp
        subst hp
        simp only [loadOk, Bool.and_eq_true]
        exact ⟨by simpa using hf, by simpa using hu⟩

theorem workerStep_cacheValid (env : Env) (st : RendererState)
    (req : WorkerRequest) (h : cacheValid env st) :
    cacheValid env (workerStep env st req).2.1 := by
  intro p hp
  by_cases hc : st.currentStyle = some req.style_path
  · simp only [workerStep, if_pos hc] at hp
    exact h p hp
  · by_cases hf : env.isFile req.style_path = false
    · simp only [workerStep, if_neg hc, loadStyleFromPath, hf, if_true] at hp
      exact h p hp
    · by_cases hu : env.pathUtf8 req.style_path = false
      · simp only [workerStep, if_neg hc, loadStyleFromPath, hf, hu,
          if_true, if_false] at hp
        exact h p hp
      · have hcur : (workerStep env st req).2.1.currentStyle = some req.style_path := by
          simp [workerStep, loadStyleFromPath, hc, hf, hu]
        rw [hcur, Option.some_inj] at hp
        subst hp
        simp only [loadOk, Bool.and_eq_true]
        exact ⟨by simpa using hf, by simpa using hu⟩

theorem poolStep_invoked (env : Env) (st : RendererState) (q : RenderRequest) :
    (poolStep env st q).2.2.1 = decide (st.currentStyle ≠ some q.style_path) := by
  by_cases hc : st.currentStyle = some q.style_path
  · simp [poolStep, hc]
  · by_cases hf : env.isFile q.style_path = false
    · simp [poolStep, loadStyleFromPath, hc, hf]
    · by_cases hu : env.pathUtf8 q.style_path = false
      · simp [poolStep, loadStyleFromPath, hc, hf, hu]
      · simp [poolStep, loadStyleFromPath, hc, hf, hu]

theorem poolStep_cache (env : Env) (st : RendererState) (q : RenderRequest) :
    (poolStep env st q).2.1.currentStyle =
      if st.currentStyle = some q.style_path then st.currentStyle
      else if loadOk env q.style_path then some q.style_path
      else st.currentStyle := by
  by_cases hc : st.currentStyle = some q.style_path
  · simp [poolStep, hc]
  · by_cases hf : env.isFile q.style_path = false
    · simp [poolStep, loadStyleFromPath, loadOk, hc, hf]
    · by_cases hu : env.pathUtf8 q.style_path = false
      · simp [poolStep, loadStyleFromPath, loadOk, hc, hf, hu]
      · simp [poolStep, loadStyleFromPath, loadOk, hc, hf, hu,
          Bool.not_eq_false] at *

theorem workerStep_invoked (env : Env) (st : RendererState) (w : WorkerRequest) :
    (workerStep env st w).2.2.1 = decide (st.currentStyle ≠ some w.style_path) := by
  by_cases hc : st.currentStyle = some w.style_path
  · simp [workerStep, hc]
  · by_cases hf : env.isFile w.style_path = false
    · simp [workerStep, loadStyleFromPath, hc, hf]
    · by_cases hu : env.pathUtf8 w.style_path = false
      · simp [workerStep, loadStyleFromPath, hc, hf, hu]
      · simp [workerStep, loadStyleFromPath, hc, hf, hu]

theorem workerStep_cache (env : Env) (st : RendererState) (w : WorkerRequest) :
    (workerStep env st w).2.1.currentStyle =
      if st.currentStyle = some w.style_path then st.currentStyle
      else if loadOk env w.style_path then some w.style_path
      else st.currentStyle := by
  by_cases hc : st.currentStyle = some w.style_path
  · simp [workerStep, hc]
  · by_cases hf : env.isFile w.style_path = false
    · simp [workerStep, loadStyleFromPath, loadOk, hc, hf]
    · by_cases hu : env.pathUtf8 w.style_path = false
      · simp [workerStep, loadStyleFromPath, loadOk, hc, hf, hu]
      · simp [workerStep, loadStyleFromPath, loadOk, hc, hf, hu,
          Bool.not_eq_false] at *

/-- C3: in both contexts — the Serializing Pool's worker thread
(`poolStep`) and a process-pool worker (`workerStep`) — the backend's
`load_style_from_path` is invoked on a request iff the requested path
differs from the context's cached path, and the cached path is updated
exactly when the load succeeds, so a failed load leaves the cache
unchanged (and a repeatedly-failing path is retried on every request,
since the cache still differs from it). -/
theorem style_cache_policy (env : Env) (st : RendererState)
    (q : RenderRequest) (w : WorkerRequest) :
    ((poolStep env st q).2.2.1 = decide (st.currentStyle ≠ some q.style_path)) ∧
    ((poolStep env st q).2.1.currentStyle =
      if st.currentStyle = some q.style_path then st.currentStyle
      else if loadOk env q.style_path then some q.style_path
      else st.currentStyle) ∧
    ((workerStep env st w).2.2.1 = decide (st.currentStyle ≠ some w.style_path)) ∧
    ((workerStep env st w).2.1.currentStyle =
      if st.currentStyle = some w.style_path then st.currentStyle
      else if loadOk env w.style_path then some w.style_path
      else st.currentStyle) :=
  ⟨poolStep_invoked env st q, poolStep_cache env st q,
    workerStep_invoked env st w, workerStep_cache env st w⟩

/-- C4: for every style path that is not an existing regular file, a
render call returns a NotFound-class error and performs zero backend
interaction, in both contexts: the Serializing Pool's thread returns
`PoolError::IOError(NotFound)` and the process-pool worker answers
`Err("Failed to load style: ...NotFound...")`, and neither emits a single
backend event (no style load, no tile render). The hypothesis
`cacheValid` says every cached path once passed the load checks — true of
the initial state (`cacheValid_init`) and preserved by every step
(`poolStep_cacheValid`, `workerStep_cacheValid`), i.e. of every reachable
state. -/
theorem notfound_before_backend (env : Env) (st : RendererState)
    (q : RenderRequest) (w : WorkerRequest)
    (hst : cacheValid env st)
    (hq : env.isFile q.style_path = false)
    (hw : env.isFile w.style_path = false) :
    (poolStep env st q).1 = .error (.ioError .notFound) ∧
    (poolStep env st q).2.2.2 = [] ∧
    (workerStep env st w).1.result = Sum.inr (loadErrorMsg .notFound) ∧
    (workerStep env st w).2.2.2 = [] := by
  have hcq : ¬ st.currentStyle = some q.style_path := by
    intro h
    have := hst _ h
    simp [loadOk, hq] at this
  have hcw : ¬ st.currentStyle = some w.style_path := by
    intro h
    have := hst _ h
    simp [loadOk, hw] at this
  refine ⟨?_, ?_, ?_, ?_⟩ <;>
    simp [poolStep, workerStep, loadStyleFromPath, hcq, hcw, hq, hw]

/-- Witness for C4: a filesystem where no path is a file, a fresh
context, and one concrete request per context. -/
theorem notfound_before_backend_witness :
    (poolStep ⟨fun _ => false, fun _ => true, fun _ _ _ => [], true⟩
        initRenderer ⟨[97], 0, 0, 0⟩).1 = .error (.ioError .notFound) ∧
    (poolStep ⟨fun _ => false, fun _ => true, fun _ _ _ => [], true⟩
        initRenderer ⟨[97], 0, 0, 0⟩).2.2.2 = [] ∧
    (workerStep ⟨fun _ => false, fun _ => true, fun _ _ _ => [], true⟩
        initRenderer ⟨9, [98], 1, 2, 3⟩).1.result =
      Sum.inr (loadErrorMsg .notFound) ∧
    (workerStep ⟨fun _ => false, fun _ => true, fun _ _ _ => [], true⟩
        initRenderer ⟨9, [98], 1, 2, 3⟩).2.2.2 = [] :=
  notfound_before_backend _ initRenderer ⟨[97], 0, 0, 0⟩ ⟨9, [98], 1, 2, 3⟩
    (by intro p hp; simp [initRenderer] at hp) rfl rfl

theorem scanDepth_append (a b : List BackendEvent) (d : Nat) :
    scanDepth d (a ++ b) = (scanDepth d a).bind fun d' => scanDepth d' b := by
  induction a generalizing d with
  | nil => simp [scanDepth]
  | cons e rest ih =>
    simp only [List.cons_append, scanDepth]
    by_cases hb : isBegin e
    · by_cases hd : d = 0 <;> simp [hb, hd, ih]
    · by_cases hd : d = 1 <;> simp [hb, hd, ih]

theorem renderTile_events_serial (env : Env) (specified : Bool) (z x y : Nat) :
    scanDepth 0 (renderTile env specified z x y).2 = some 0 := by
  rw [renderTile]
  by_cases h : specified = false
  · simp [h, scanDepth]
  · simp only [h, if_false]
    cases Image.from_raw (env.renderData z x y) <;>
      simp [scanDepth, isBegin]

theorem poolStep_events_serial (env : Env) (st : RendererState)
    (req : RenderRequest) :
    scanDepth 0 (poolStep env st req).2.2.2 = some 0 := by
  by_cases hc : st.currentStyle = some req.style_path
  · simpa [poolStep, hc] using renderTile_events_serial env st.specified req.z req.x req.y
  · by_cases hf : env.isFile req.style_path = false
    · simp [poolStep, loadStyleFromPath, hc, hf, scanDepth]
    · by_cases hu : env.pathUtf8 req.style_path = false
      · simp [poolStep, loadStyleFromPath, hc, hf, hu, scanDepth]
      · rw [poolStep, if_neg hc]
        have hload : loadStyleFromPath env st.specified req.style_path =
            (.ok (), true, [.loadBegin req.style_path, .loadEnd req.style_path]) := by
          simp [loadStyleFromPath, hf, hu]
        rw [hload]
        dsimp only
        rw [scanDepth_append]
        simpa [scanDepth, isBegin] using
          renderTile_events_serial env true req.z req.x req.y

theorem poolTrace_serial (env : Env) (reqs : List RenderRequest) :
    ∀ st, scanDepth 0 (poolTrace env st reqs) = some 0 := by
  induction reqs with
  | nil => intro st; simp [poolTrace, scanDepth]
  | cons req rest ih =>
    intro st
    rw [poolTrace, scanDepth_append, poolStep_events_serial]
    simpa using ih (poolStep env st req).2.1

/-- C1: the Serializing Pool's dedicated worker thread processes the
requests its queue delivers strictly sequentially: along the backend
event trace of any request sequence (any interleaving of concurrent
callers, since all of them funnel into the single mpsc queue), backend
calls strictly alternate begin/end starting and ending closed — at no
point are two backend load/render calls in flight against the single
Backend instance. -/
theorem serializing_pool_no_overlap (env : Env) (reqs : List RenderRequest) :
    scanDepth 0 (poolTrace env initRenderer reqs) = some 0 :=
  poolTrace_serial env reqs initRenderer

theorem readFrame_length (s b rest : List Nat)
    (h : readFrame s = some (b, rest)) : rest.length + 4 ≤ s.length := by
  rw [readFrame] at h
  rcases h4 : readExact 4 s with _ | ⟨lenB, r1⟩
  · rw [h4] at h; exact absurd h (by simp)
  · rw [h4] at h
    dsimp only at h
    rcases hl : readExact (leValue lenB) r1 with _ | ⟨buf, r2⟩
    · rw [hl] at h; exact absurd h (by simp)
    · rw [hl] at h
      simp only [Option.some.injEq, Prod.mk.injEq] at h
      obtain ⟨-, hrest⟩ := h
      rw [readExact] at h4 hl
      by_cases c4 : 4 ≤ s.length
      · rw [if_pos c4] at h4
        simp only [Option.some.injEq, Prod.mk.injEq] at h4
        obtain ⟨-, hr1⟩ := h4
        by_cases cl : leValue lenB ≤ r1.length
        · rw [if_pos cl] at hl
          simp only [Option.some.injEq, Prod.mk.injEq] at hl
          obtain ⟨-, hr2⟩ := hl
          subst hrest
          subst hr2
          subst hr1
          simp only [List.length_drop]
          omega
        · rw [if_neg cl] at hl; exact Option.noConfusion hl
      · rw [if_neg c4] at h4; exact Option.noConfusion h4

theorem readResponsesFuel_congr (f : Nat) :
    ∀ (f' : Nat) (s pending : List Nat), s.length < f → s.length < f' →
      readResponsesFuel f s pending = readResponsesFuel f' s pending := by
  induction f with
  | zero => intro f' s pending hf _; omega
  | succ f ih =>
    intro f' s pending hf hf'
    cases f' with
    | zero => omega
    | succ f' =>
      rcases hr : readFrame s with _ | ⟨buf, rest⟩
      · simp [readResponsesFuel, hr]
      · have hlen := readFrame_length s buf rest hr
        simp only [readResponsesFuel, hr]
        rcases hd : decodeWorkerResponse buf with _ | resp
        · simp only [hd]
          exact ih f' rest pending (by omega) (by omega)
        · simp only [hd]
          by_cases hp : resp.id ∈ pending
          · rw [if_pos hp, if_pos hp,
              ih f' rest (pending.erase resp.id) (by omega) (by omega)]
          · rw [if_neg hp, if_neg hp]
            exact ih f' rest pending (by omega) (by omega)

/-- C7 counterexample: the stream holds a corrupt frame (empty payload,
which fails bincode decoding) followed by a well-formed response frame
for pending id 5. The claim says the parent stops processing the stream
at the corrupt frame and abandons all pending completions — i.e. the
result would be `([], [5])` — but `read_responses` `continue`s past the
bad frame and resolves completion 5. -/
theorem read_responses_counterexample :
    readResponses (writeFrame [] ++
        writeFrame (encodeWorkerResponse ⟨5, Sum.inr [120]⟩)) [5] =
      some ([(5, ReaderResult.workerError [120])], []) ∧
    some ([(5, ReaderResult.workerError [120])], ([] : List Nat)) ≠
      some ([], [5]) := by
  constructor
  · decide
  · decide

/-- C7 (amended): if a response frame read from a worker's output stream
fails to decode, the parent discards that frame and continues processing
the stream from the next frame, as if the corrupt frame had not been
there (its own pending completion, if any, is simply never resolved);
pending completions are abandoned wholesale only when a stream read
fails. -/
theorem decode_failure_skips_frame (bad rest pending : List Nat)
    (hlen : bad.length < 2 ^ 32)
    (hbad : decodeWorkerResponse bad = none) :
    readResponses (writeFrame bad ++ rest) pending =
      readResponses rest pending := by
  have hframe := readFrame_writeFrame bad rest hlen
  have hL : rest.length < (writeFrame bad ++ rest).length := by
    simp only [List.length_append, writeFrame, leBytes_length]
    omega
  rw [readResponses, readResponses]
  rw [show (writeFrame bad ++ rest).length + 1 =
    ((writeFrame bad ++ rest).length) + 1 from rfl]
  simp only [readResponsesFuel, hframe, hbad]
  exact readResponsesFuel_congr _ _ rest pending hL (Nat.lt_succ_self _)

/-- Witness for C7 (amended) at the counterexample's inputs: skipping the
empty corrupt frame leaves exactly the tail stream to process. -/
theorem decode_failure_skips_frame_witness :
    readResponses (writeFrame [] ++
        writeFrame (encodeWorkerResponse ⟨5, Sum.inr [120]⟩)) [5] =
      readResponses (writeFrame (encodeWorkerResponse ⟨5, Sum.inr [120]⟩)) [5] :=
  decode_failure_skips_frame []
    (writeFrame (encodeWorkerResponse ⟨5, Sum.inr [120]⟩)) [5]
    (by norm_num) (by decide)

theorem runWorkerLoopFuel_ok (env : Env) (h : env.stdoutOk = true) :
    ∀ (fuel : Nat) (stream : List Nat) (st : RendererState),
      stream.length < fuel →
      runWorkerLoopFuel env fuel stream st = some RunExit.ok := by
  intro fuel
  induction fuel with
  | zero => intro s st hs; omega
  | succ fuel ih =>
    intro s st hs
    rcases hr : readFrame s with _ | ⟨buf, rest⟩
    · simp [runWorkerLoopFuel, hr]
    · have hlen := readFrame_length s buf rest hr
      simp only [runWorkerLoopFuel, hr]
      rcases hd : decodeWorkerRequest buf with _ | req
      · simp only [hd]
        exact ih rest st (by omega)
      · simp only [hd]
        rw [if_pos h]
        exact ih rest _ (by omega)

/-- C8 counterexample: stdin holds one well-formed request frame (which
reads and decodes fine) but writes to stdout fail; `run_worker` then
returns early with an `Err` propagated by `?` from `send_response` —
a return not caused by any read failure, where the claim says read
failure is the only way it returns. -/
theorem run_worker_counterexample :
    runWorker ⟨fun _ => false, fun _ => true, fun _ _ _ => [], false⟩
        (sendRequestBytes ⟨1, [97], 0, 0, 0⟩) = some RunExit.ioErr ∧
      some RunExit.ioErr ≠ some RunExit.ok := by
  constructor
  · decide
  · decide

/-- C8 (amended): `run_worker` loops reading framed requests from its own
standard input and writing framed responses to its own standard output;
whenever every response write succeeds it returns `Ok(())`, and does so
only when a read fails (EOF or truncated frame — in the model, `RunExit.ok`
is produced exactly at `readFrame = none`); additionally it returns
early with an `Err` when encoding/writing a response fails
(`send_response`'s `?` operators at multi_threaded.rs lines 379 and 425). -/
theorem run_worker_amended (env : Env) (stream : List Nat)
    (h : env.stdoutOk = true) :
    runWorker env stream = some RunExit.ok :=
  runWorkerLoopFuel_ok env h _ stream initRenderer (Nat.lt_succ_self _)

/-- Witness for C8 (amended): with writes succeeding, a stream holding
one valid request frame is fully processed and the loop exits `Ok` at
EOF. -/
theorem run_worker_amended_witness :
    runWorker ⟨fun _ => false, fun _ => true, fun _ _ _ => [], true⟩
        (sendRequestBytes ⟨1, [97], 0, 0, 0⟩) = some RunExit.ok :=
  run_worker_amended ⟨fun _ => false, fun _ => true, fun _ _ _ => [], true⟩
    (sendRequestBytes ⟨1, [97], 0, 0, 0⟩) rfl

end Maplibre
